import Mathlib

/-!
Verification of the `kamikaze_di` dependency-injection container
(`src/kamikaze_di/src/container.rs`).

The container stores `Resolver` entries in a `HashMap<TypeId, Resolver>`
behind a `RefCell`.  We embed it shallowly:

* `TypeId` becomes an abstract `Key` (a `Nat`): type identity is exactly
  key identity.
* The erased payload `Any` becomes a value domain `V` (a type parameter).
* `Rc<Any>` becomes `RcV V`: the payload together with an allocation
  address, so that "handles referring to the identical instance" is the
  statement that the addresses coincide.  `Rc::new` draws a fresh address
  from the allocator `nextAddr`; `Rc::clone` keeps the address.
* User constructors (`FnOnce(&Container) -> T`, `FnMut(&Container) -> T`)
  are embedded as `FreeC`: a constructor body either returns, performs a
  nested `resolve` and continues with its `ResolveResult`, or panics
  (e.g. `.unwrap()` on an `Err`).  A factory additionally carries its
  captured mutable state, threaded through each call.
* The `RefCell` dynamic-borrow discipline is made explicit: `call_factory`
  holds a shared borrow of the resolver map plus an exclusive borrow of
  that factory's own cell for the whole duration of the user call
  (`mapShared`, `lockedCells`); `consume_builder` holds no borrow across
  the user call.  `borrow_mut` of the map panics while `mapShared ≠ 0`;
  `borrow_mut` of a locked cell panics.
* Recursion through nested resolutions is bounded by fuel; running out of
  fuel is a distinct outcome never identified with any program behaviour.

Ghost fields `builderRuns` / `factoryRuns` record which constructors were
invoked (for "the constructor runs exactly once" style claims); they do
not influence control flow.
-/

set_option autoImplicit false

namespace KamikazeDi

/-- Type identity (`std::any::TypeId`): a stable per-type key. -/
abbrev Key := Nat

/-- The source returns `Err(String)`; the only two messages resolution and
registration ever format are `"Type not registered: {:?}"` and
`"Container already has {:?}"`.  We abstract the string as its kind
together with the offending key. -/
inductive DiError where
  | notRegistered (k : Key)
  | duplicate (k : Key)
deriving DecidableEq, Repr

/-- A shared-ownership handle (`Rc<Any>` / `Rc<T>`): payload plus
allocation address.  Cloning preserves `addr`; `Rc::new` allocates a
fresh one. -/
structure RcV (V : Type) where
  addr : Nat
  val : V
deriving DecidableEq, Repr

/-- The distinct ways the program can panic. -/
inductive PanicKind where
  /-- `unimplemented!("This will be implemented later")` in
  `register_automatic_factory`. -/
  | unimplemented
  /-- `self.resolvers.borrow_mut()` while a shared borrow of the map is
  outstanding (held across a factory call). -/
  | mapBorrowMut
  /-- `cell.borrow_mut()` on a factory cell that is already mutably
  borrowed (re-entering the same factory). -/
  | cellBorrowMut
  /-- A user constructor panicked (e.g. `.unwrap()` on an `Err`). -/
  | userPanicked
deriving DecidableEq, Repr

/-- A user-supplied constructor body.  It may perform nested `resolve`
calls against the container (receiving the full `ResolveResult`,
`Ok(Rc<T>)` or `Err(String)`) and finally returns a value of type `A`. -/
inductive FreeC (V : Type) (A : Type) : Type where
  | ret (a : A)
  | resolveK (k : Key) (cont : Except DiError (RcV V) → FreeC V A)
  | panicC

/-- `enum Resolver`: `Shared(Rc<Any>)`, `Builder(Box<Any>)`,
`Factory(RefCell<Box<Any>>)`.  A factory is an `FnMut` closure: captured
mutable state `state` plus code run on that state producing the value and
the successor state. -/
inductive Resolver (V : Type) : Type where
  | shared (item : RcV V)
  | builder (b : FreeC V V)
  | factory (state : V) (code : V → FreeC V (V × V))

/-- `enum ResolverType { Factory, Builder, Shared }` -/
inductive ResolverType where
  | factory
  | builder
  | shared
deriving DecidableEq, Repr

/-- `impl From<&Resolver> for ResolverType` -/
def resolverTypeOf {V : Type} : Resolver V → ResolverType
  | .factory _ _ => .factory
  | .builder _ => .builder
  | .shared _ => .shared

/-- Container state: the resolver map, the `Rc` allocator, the dynamic
borrow state of the map and of the factory cells, and the ghost logs of
invoked builders/factories. -/
structure St (V : Type) : Type where
  resolvers : List (Key × Resolver V)
  nextAddr : Nat
  /-- outstanding shared borrows of the map held across user code
  (one per in-flight `call_factory` frame). -/
  mapShared : Nat
  /-- factory cells currently `borrow_mut`-ed (one per in-flight
  `call_factory` frame). -/
  lockedCells : List Key
  /-- ghost: keys whose builder constructor has been invoked, latest first. -/
  builderRuns : List Key
  /-- ghost: keys whose factory closure has been invoked, latest first. -/
  factoryRuns : List Key

/-- `Container::new()` -/
def emptySt (V : Type) : St V :=
  { resolvers := [], nextAddr := 0, mapShared := 0, lockedCells := [],
    builderRuns := [], factoryRuns := [] }

/-- `HashMap::get` on the resolver map (keys kept unique). -/
def lookupEntry {V : Type} (k : Key) : List (Key × Resolver V) → Option (Resolver V)
  | [] => none
  | (k', r) :: rest => if k' = k then some r else lookupEntry k rest

/-- `HashMap::remove`. -/
def removeEntry {V : Type} (k : Key) : List (Key × Resolver V) → List (Key × Resolver V)
  | [] => []
  | (k', r) :: rest => if k' = k then removeEntry k rest else (k', r) :: removeEntry k rest

/-- `HashMap::insert` (overwrites an existing binding). -/
def setEntry {V : Type} (k : Key) (r : Resolver V) :
    List (Key × Resolver V) → List (Key × Resolver V)
  | [] => [(k, r)]
  | (k', r') :: rest => if k' = k then (k, r) :: rest else (k', r') :: setEntry k r rest

/-- Outcome of a container operation (`DiResult`): success with the
resulting state, an `Err` returned to the caller with the resulting
state, a panic (the process dies; no state survives), or fuel
exhaustion (an artefact of the bounded semantics only). -/
inductive Res (V : Type) (A : Type) : Type where
  | ok (a : A) (s : St V)
  | err (e : DiError) (s : St V)
  | panicked (p : PanicKind)
  | fuelOut

/-- Outcome of running a user constructor body: a constructor returns a
plain value (its nested `ResolveResult`s are handed to it, never
propagated), panics, or the fuel runs out. -/
inductive CRes (V : Type) (A : Type) : Type where
  | ok (a : A) (s : St V)
  | panicked (p : PanicKind)
  | fuelOut

/-- `Container::has` / the membership test inside `Container::insert`. -/
def hasKey {V : Type} (k : Key) (s : St V) : Bool :=
  (lookupEntry k s.resolvers).isSome

/-- `Container::insert`: duplicate check via `has` (a transient shared
borrow, always fine), then `borrow_mut().insert` — which panics if a
shared borrow of the map is held across this point. -/
def insertResolver {V : Type} (k : Key) (r : Resolver V) (s : St V) : Res V Unit :=
  if hasKey k s then .err (.duplicate k) s
  else if s.mapShared ≠ 0 then .panicked .mapBorrowMut
  else .ok () { s with resolvers := setEntry k r s.resolvers }

/-- `Container::get_shared`: look the entry up again (`.unwrap()` would
panic were it absent; the non-`Shared` arm is
`panic!("Type {:?} not registered as shared dependency")`). -/
def getShared {V : Type} (k : Key) (s : St V) : Res V (RcV V) :=
  match lookupEntry k s.resolvers with
  | some (.shared rc) => .ok rc s
  | some _ => .panicked .userPanicked
  | none => .panicked .userPanicked

/-- Run a user constructor body against a given nested-resolution
semantics `res` (it will be instantiated with `resolveKey` at one less
unit of fuel). -/
def runCtorWith {V A : Type} (res : Key → St V → Res V (RcV V)) :
    FreeC V A → St V → CRes V A
  | .ret a, s => .ok a s
  | .panicC, _ => .panicked .userPanicked
  | .resolveK k cont, s =>
    match res k s with
    | .ok rc s' => runCtorWith res (cont (.ok rc)) s'
    | .err e s' => runCtorWith res (cont (.error e)) s'
    | .panicked p => .panicked p
    | .fuelOut => .fuelOut

/-- `Container::resolve_as_any` (together with the private helpers it
calls): dispatch on the entry's `ResolverType`.

* absent → `Err("Type not registered: …")`;
* `Shared` → `get_shared`: return a clone of the stored handle;
* `Builder` → `consume_builder` then `get_shared`: `borrow_mut` the map
  (panics while a factory call is in flight), remove the entry, run the
  builder with no borrow held, wrap the result in a fresh `Rc`, re-insert
  it as `Shared` via `Container::insert` (whose `Err` propagates through
  `?`), then `get_shared`;
* `Factory` → `call_factory`: holds the map's shared borrow and the
  cell's exclusive borrow for the whole user call (re-entering the same
  cell panics), runs the closure on its captured state, writes the
  evolved state back into the cell, and wraps the fresh value in a new
  `Rc`. -/
def resolveKey {V : Type} : Nat → Key → St V → Res V (RcV V)
  | 0, _, _ => .fuelOut
  | n + 1, k, s =>
    match lookupEntry k s.resolvers with
    | none => .err (.notRegistered k) s
    | some (.shared _) => getShared k s
    | some (.builder b) =>
      if s.mapShared ≠ 0 then .panicked .mapBorrowMut
      else
        match runCtorWith (resolveKey n) b
            { s with resolvers := removeEntry k s.resolvers,
                     builderRuns := k :: s.builderRuns } with
        | .ok v s2 =>
          match insertResolver k (.shared ⟨s2.nextAddr, v⟩)
              { s2 with nextAddr := s2.nextAddr + 1 } with
          | .ok _ s4 => getShared k s4
          | .err e s' => .err e s'
          | .panicked p => .panicked p
          | .fuelOut => .fuelOut
        | .panicked p => .panicked p
        | .fuelOut => .fuelOut
    | some (.factory st code) =>
      if s.lockedCells.contains k then .panicked .cellBorrowMut
      else
        match runCtorWith (resolveKey n) (code st)
            { s with mapShared := s.mapShared + 1,
                     lockedCells := k :: s.lockedCells,
                     factoryRuns := k :: s.factoryRuns } with
        | .ok vst s2 =>
          .ok ⟨s2.nextAddr, vst.1⟩
            { s2 with mapShared := s2.mapShared - 1,
                      lockedCells := s2.lockedCells.erase k,
                      resolvers := setEntry k (.factory vst.2 code) s2.resolvers,
                      nextAddr := s2.nextAddr + 1 }
        | .panicked p => .panicked p
        | .fuelOut => .fuelOut

/-- Run a user constructor body with `fuel` units of nesting depth for
its nested resolutions. -/
def runCtor {V A : Type} (fuel : Nat) : FreeC V A → St V → CRes V A :=
  runCtorWith (resolveKey fuel)

/-- `Container::register`: `Rc::new(item)` first (the allocation happens
before the duplicate check), then `insert`. -/
def register {V : Type} (k : Key) (v : V) (s : St V) : Res V Unit :=
  let rc : RcV V := ⟨s.nextAddr, v⟩
  insertResolver k (.shared rc) { s with nextAddr := s.nextAddr + 1 }

/-- `Container::register_builder`. -/
def registerBuilder {V : Type} (k : Key) (b : FreeC V V) (s : St V) : Res V Unit :=
  insertResolver k (.builder b) s

/-- `Container::register_factory`. -/
def registerFactory {V : Type} (k : Key) (st : V) (code : V → FreeC V (V × V))
    (s : St V) : Res V Unit :=
  insertResolver k (.factory st code) s

/-- `Container::register_automatic_factory`: its entire body is
`unimplemented!("This will be implemented later")` — it panics before
touching the registry. -/
def registerAutomaticFactory {V : Type} (_k : Key) (_s : St V) : Res V Unit :=
  .panicked .unimplemented

/-- `Container::resolve` = `get` = `resolve_as_any` followed by the
unchecked `downcast` (the identity on the payload). -/
def resolve {V : Type} (fuel : Nat) (k : Key) (s : St V) : Res V (RcV V) :=
  resolveKey fuel k s




/-! ### Derived operations and specification-level definitions -/

/-- `true` iff an outcome is an `Err` returned to the caller. -/
def isErr {V A : Type} : Res V A → Bool
  | .err _ _ => true
  | _ => false

/-- Perform `steps` successive `resolve` calls for key `k`, each with the
same `fuel`, collecting the outcomes in order; a call that does not
succeed ends the run. -/
def resolveIter {V : Type} (fuel : Nat) (k : Key) : Nat → St V → List (Res V (RcV V))
  | 0, _ => []
  | steps + 1, s =>
    match resolveKey fuel k s with
    | .ok rc s' => .ok rc s' :: resolveIter fuel k steps s'
    | r => [r]

/-- A registration request: the payload of `register`, `register_builder`
or `register_factory`. -/
inductive RegOp (V : Type) : Type where
  | val (v : V)
  | bld (b : FreeC V V)
  | fac (st : V) (code : V → FreeC V (V × V))

/-- Apply a registration request to the container. -/
def applyReg {V : Type} : RegOp V → Key → St V → Res V Unit
  | .val v, k, s => register k v s
  | .bld b, k, s => registerBuilder k b s
  | .fac st code, k, s => registerFactory k st code s

/-- The resolver entry a registration request creates (`register` wraps
the value in a fresh `Rc` drawn from the allocator of the pre-state). -/
def regEntry {V : Type} : RegOp V → St V → Resolver V
  | .val v, s => .shared ⟨s.nextAddr, v⟩
  | .bld b, _ => .builder b
  | .fac st code, _ => .factory st code

/-- A public container operation. -/
inductive Op (V : Type) : Type where
  | reg (k : Key) (v : V)
  | regBuilder (k : Key) (b : FreeC V V)
  | regFactory (k : Key) (st : V) (code : V → FreeC V (V × V))
  | regAuto (k : Key)
  | resolveOp (fuel : Nat) (k : Key)

/-- Execute one public operation, keeping the state it hands back to the
caller (on `Ok` as well as on `Err`); `none` when the operation panics
(or the bounded semantics runs out of fuel). -/
def stepSt {V : Type} : Op V → St V → Option (St V)
  | .reg k v, s =>
    match register k v s with
    | .ok _ s' => some s'
    | .err _ s' => some s'
    | _ => none
  | .regBuilder k b, s =>
    match registerBuilder k b s with
    | .ok _ s' => some s'
    | .err _ s' => some s'
    | _ => none
  | .regFactory k st code, s =>
    match registerFactory k st code s with
    | .ok _ s' => some s'
    | .err _ s' => some s'
    | _ => none
  | .regAuto k, s =>
    match registerAutomaticFactory k s with
    | .ok _ s' => some s'
    | .err _ s' => some s'
    | _ => none
  | .resolveOp fuel k, s =>
    match resolveKey fuel k s with
    | .ok _ s' => some s'
    | .err _ s' => some s'
    | _ => none

/-! ### The per-entry transition relation

`EntryRel e e'` records how one full (completed) operation may change a
key's entry: absent keys stay absent inside constructor runs, `Shared`
entries are immutable, a `Builder` entry either stays or becomes `Shared`
(memoization), and a `Factory` entry keeps its code while its captured
state may evolve. -/

def EntryRel {V : Type} : Option (Resolver V) → Option (Resolver V) → Prop
  | none, none => True
  | some (.shared rc), some (.shared rc') => rc' = rc
  | some (.builder b), some (.builder b') => b' = b
  | some (.builder _), some (.shared _) => True
  | some (.factory _ code), some (.factory _ code') => code' = code
  | _, _ => False

/-- End-to-end relation between the container state before and after one
completed operation (or completed constructor run): the dynamic borrow
state is restored, the allocator only grows, every entry follows
`EntryRel`, a builder of a key absent at the start is never invoked, and
a factory whose cell is locked at the start is never invoked. -/
def StRel {V : Type} (s s' : St V) : Prop :=
  s'.mapShared = s.mapShared ∧
  s'.lockedCells = s.lockedCells ∧
  s.nextAddr ≤ s'.nextAddr ∧
  (∀ j, EntryRel (lookupEntry j s.resolvers) (lookupEntry j s'.resolvers)) ∧
  (∀ j, lookupEntry j s.resolvers = none →
    s'.builderRuns.count j = s.builderRuns.count j) ∧
  (∀ j, j ∈ s.lockedCells → s'.factoryRuns.count j = s.factoryRuns.count j)

/-- Contract of a nested-resolution semantics as seen by a user
constructor: completed resolutions relate initial and final state by
`StRel`; failed resolutions report `NotRegistered` for the requested key
and leave the state untouched. -/
def ResolveSpec {V : Type} (res : Key → St V → Res V (RcV V)) : Prop :=
  (∀ k s rc s', res k s = .ok rc s' → StRel s s') ∧
  (∀ k s e s', res k s = .err e s' → s' = s ∧ e = .notRegistered k)


/-! ### Basic lemmas about the transition relations -/


/-- The spec's counter factory, registered under key 2: it captures a
mutable counter `i`, increments it, resolves the base value registered
under key 1 and returns `base - i` together with the evolved counter. -/
def counterFactory : Int → FreeC Int (Int × Int) := fun i =>
  .resolveK 1 (fun r =>
    .ret ((match r with | .ok rc => rc.val | .error _ => 0) - (i + 1), i + 1))

/-- A container holding the base value 43 (key 1, `Shared`) and the
counter factory (key 2, state 0). -/
def counterSt : St Int :=
  { resolvers := [(1, .shared ⟨0, 43⟩), (2, .factory 0 counterFactory)],
    nextAddr := 1, mapShared := 0, lockedCells := [],
    builderRuns := [], factoryRuns := [] }

/-- `counterSt` after one resolution of key 2: the factory's captured
counter has advanced to 1 and one fresh handle was allocated. -/
def counterSt1 : St Int :=
  { resolvers := [(1, .shared ⟨0, 43⟩), (2, .factory 1 counterFactory)],
    nextAddr := 2, mapShared := 0, lockedCells := [],
    builderRuns := [], factoryRuns := [2] }

/-- `counterSt` after two resolutions of key 2. -/
def counterSt2 : St Int :=
  { resolvers := [(1, .shared ⟨0, 43⟩), (2, .factory 2 counterFactory)],
    nextAddr := 3, mapShared := 0, lockedCells := [],
    builderRuns := [], factoryRuns := [2, 2] }


/-- A container holding a single builder (key 3) that returns 42. -/
def builderSt : St Int :=
  { resolvers := [(3, .builder (.ret 42))],
    nextAddr := 0, mapShared := 0, lockedCells := [],
    builderRuns := [], factoryRuns := [] }

/-- `builderSt` after the first resolution of key 3: memoized. -/
def builderSt1 : St Int :=
  { resolvers := [(3, .shared ⟨0, 42⟩)],
    nextAddr := 1, mapShared := 0, lockedCells := [],
    builderRuns := [3], factoryRuns := [] }


/-- The body of a pathological self-referential builder for key 4: it
resolves key 4 itself and returns -7 exactly when that nested resolve
reports `NotRegistered 4` (and 0 in every other case). -/
def selfProbe : Except DiError (RcV Int) → Int := fun r =>
  match r with
  | .error (.notRegistered 4) => -7
  | _ => 0

/-- A container holding only the self-referential builder under key 4. -/
def selfSt : St Int :=
  { resolvers := [(4, .builder (.resolveK 4 (fun r => .ret (selfProbe r))))],
    nextAddr := 0, mapShared := 0, lockedCells := [],
    builderRuns := [], factoryRuns := [] }

/-- The body of a builder that depends on key 1: on a successful nested
resolve it returns the resolved value minus one (and 0 on an error). -/
def depProbe : Except DiError (RcV Int) → Int := fun r =>
  match r with
  | .ok rc => rc.val - 1
  | .error _ => 0

/-- A container holding the shared base 43 under key 1 and, under key 3,
a builder that resolves key 1 and subtracts one. -/
def depSt : St Int :=
  { resolvers := [(1, .shared ⟨0, 43⟩),
      (3, .builder (.resolveK 1 (fun r => .ret (depProbe r))))],
    nextAddr := 1, mapShared := 0, lockedCells := [],
    builderRuns := [], factoryRuns := [] }


/-- Factory body used to probe nested resolution of a `Shared` entry:
resolve key 1, add the captured state to it, and advance the state. -/
def nestedOkCode : Int → Except DiError (RcV Int) → Int × Int := fun i r =>
  ((match r with | .ok rc => rc.val | .error _ => 0) + i, i + 1)

/-- A constructor continuation that ignores the nested result. -/
def nestedBadCont : Int → Except DiError (RcV Int) → FreeC Int (Int × Int) :=
  fun i _ => .ret (0, i)

/-- Key 1 `Shared` 5; key 2 a factory that resolves key 1. -/
def nestedOkSt : St Int :=
  { resolvers := [(1, .shared ⟨0, 5⟩),
      (2, .factory 0 (fun i => .resolveK 1 (fun r => .ret (nestedOkCode i r))))],
    nextAddr := 1, mapShared := 0, lockedCells := [],
    builderRuns := [], factoryRuns := [] }

/-- Key 2 a factory that resolves key 3; key 3 still a `Builder`. -/
def nestedBuilderSt : St Int :=
  { resolvers := [(2, .factory 0 (fun i => .resolveK 3 (nestedBadCont i))),
      (3, .builder (.ret 9))],
    nextAddr := 0, mapShared := 0, lockedCells := [],
    builderRuns := [], factoryRuns := [] }

/-- Key 2 a factory that re-enters its own key 2. -/
def nestedSelfSt : St Int :=
  { resolvers := [(2, .factory 0 (fun i => .resolveK 2 (nestedBadCont i)))],
    nextAddr := 0, mapShared := 0, lockedCells := [],
    builderRuns := [], factoryRuns := [] }

/-! ### Map lemmas -/

theorem lookupEntry_setEntry_self {V : Type} (k : Key) (r : Resolver V)
    (l : List (Key × Resolver V)) : lookupEntry k (setEntry k r l) = some r := by
  induction l with
  | nil => simp [setEntry, lookupEntry]
  | cons hd tl ih =>
    rcases hd with ⟨kh, rh⟩
    by_cases h : kh = k
    · simp [setEntry, lookupEntry, h]
    · simp [setEntry, lookupEntry, h, ih]

theorem lookupEntry_setEntry_ne {V : Type} {j k : Key} (hjk : j ≠ k) (r : Resolver V)
    (l : List (Key × Resolver V)) : lookupEntry j (setEntry k r l) = lookupEntry j l := by
  induction l with
  | nil => simp [setEntry, lookupEntry, Ne.symm hjk]
  | cons hd tl ih =>
    rcases hd with ⟨kh, rh⟩
    by_cases h : kh = k
    · subst h
      simp [setEntry, lookupEntry, Ne.symm hjk]
    · simp [setEntry, lookupEntry, h, ih]

theorem lookupEntry_removeEntry_self {V : Type} (k : Key)
    (l : List (Key × Resolver V)) : lookupEntry k (removeEntry k l) = none := by
  induction l with
  | nil => simp [removeEntry, lookupEntry]
  | cons hd tl ih =>
    rcases hd with ⟨kh, rh⟩
    by_cases h : kh = k
    · simp [removeEntry, h, ih]
    · simp [removeEntry, lookupEntry, h, ih]

theorem lookupEntry_removeEntry_ne {V : Type} {j k : Key} (hjk : j ≠ k)
    (l : List (Key × Resolver V)) :
    lookupEntry j (removeEntry k l) = lookupEntry j l := by
  induction l with
  | nil => simp [removeEntry]
  | cons hd tl ih =>
    rcases hd with ⟨kh, rh⟩
    by_cases h : kh = k
    · subst h
      simp [removeEntry, lookupEntry, Ne.symm hjk, ih]
    · simp [removeEntry, lookupEntry, h, ih]

theorem entryRel_refl {V : Type} (e : Option (Resolver V)) : EntryRel e e := by
  match e with
  | none => trivial
  | some (.shared rc) => rfl
  | some (.builder b) => rfl
  | some (.factory st code) => rfl

theorem EntryRel.none_eq {V : Type} {o : Option (Resolver V)}
    (h : EntryRel none o) : o = none := by
  match o with
  | none => rfl
  | some (.shared _) => exact h.elim
  | some (.builder _) => exact h.elim
  | some (.factory _ _) => exact h.elim

theorem EntryRel.factory_eq {V : Type} {st : V} {code : V → FreeC V (V × V)}
    {o : Option (Resolver V)} (h : EntryRel (some (.factory st code)) o) :
    ∃ st', o = some (.factory st' code) := by
  match o with
  | none => exact h.elim
  | some (.shared _) => exact h.elim
  | some (.builder _) => exact h.elim
  | some (.factory st' code') => exact ⟨st', by rw [h]⟩

theorem EntryRel.shared_eq {V : Type} {rc : RcV V} {o : Option (Resolver V)}
    (h : EntryRel (some (.shared rc)) o) : o = some (.shared rc) := by
  match o with
  | none => exact h.elim
  | some (.shared rc') => rw [h]
  | some (.builder _) => exact h.elim
  | some (.factory _ _) => exact h.elim

theorem entryRel_trans {V : Type} {a b c : Option (Resolver V)}
    (h1 : EntryRel a b) (h2 : EntryRel b c) : EntryRel a c := by
  match a, b, c with
  | none, none, none => trivial
  | none, none, some _ => exact h2.elim
  | none, some _, _ => exact h1.elim
  | some (.shared _), some (.shared _), some (.shared _) =>
    exact Eq.trans h2 h1
  | some (.shared _), some (.shared _), none => exact h2.elim
  | some (.shared _), some (.shared _), some (.builder _) => exact h2.elim
  | some (.shared _), some (.shared _), some (.factory _ _) => exact h2.elim
  | some (.shared _), none, _ => exact h1.elim
  | some (.shared _), some (.builder _), _ => exact h1.elim
  | some (.shared _), some (.factory _ _), _ => exact h1.elim
  | some (.builder _), some (.builder _), some (.builder _) => exact Eq.trans h2 h1
  | some (.builder _), some (.builder _), some (.shared _) => trivial
  | some (.builder _), some (.shared _), some (.shared _) => trivial
  | some (.builder _), some (.builder _), none => exact h2.elim
  | some (.builder _), some (.builder _), some (.factory _ _) => exact h2.elim
  | some (.builder _), some (.shared _), none => exact h2.elim
  | some (.builder _), some (.shared _), some (.builder _) => exact h2.elim
  | some (.builder _), some (.shared _), some (.factory _ _) => exact h2.elim
  | some (.builder _), none, _ => exact h1.elim
  | some (.builder _), some (.factory _ _), _ => exact h1.elim
  | some (.factory _ _), some (.factory _ _), some (.factory _ _) => exact Eq.trans h2 h1
  | some (.factory _ _), some (.factory _ _), none => exact h2.elim
  | some (.factory _ _), some (.factory _ _), some (.shared _) => exact h2.elim
  | some (.factory _ _), some (.factory _ _), some (.builder _) => exact h2.elim
  | some (.factory _ _), none, _ => exact h1.elim
  | some (.factory _ _), some (.shared _), _ => exact h1.elim
  | some (.factory _ _), some (.builder _), _ => exact h1.elim

theorem stRel_refl {V : Type} (s : St V) : StRel s s :=
  ⟨rfl, rfl, le_refl _, fun _ => entryRel_refl _, fun _ _ => rfl, fun _ _ => rfl⟩

theorem stRel_trans {V : Type} {a b c : St V} (h1 : StRel a b) (h2 : StRel b c) :
    StRel a c := by
  obtain ⟨m1, l1, n1, e1, b1, f1⟩ := h1
  obtain ⟨m2, l2, n2, e2, b2, f2⟩ := h2
  refine ⟨m2.trans m1, l2.trans l1, n1.trans n2, fun j => entryRel_trans (e1 j) (e2 j),
    fun j hj => ?_, fun j hj => ?_⟩
  · have hb : lookupEntry j b.resolvers = none := by
      have := e1 j
      rw [hj] at this
      exact this.none_eq
    rw [b2 j hb, b1 j hj]
  · have hbmem : j ∈ b.lockedCells := by rw [l1]; exact hj
    rw [f2 j hbmem, f1 j hj]

/-! ### Inversion lemmas for the small helpers -/

theorem insertResolver_eq_ok {V : Type} {k : Key} {r : Resolver V} {s : St V}
    {u : Unit} {s' : St V} (h : insertResolver k r s = .ok u s') :
    hasKey k s = false ∧ s.mapShared = 0 ∧
      s' = { s with resolvers := setEntry k r s.resolvers } := by
  unfold insertResolver at h
  split at h
  · exact Res.noConfusion h
  · split at h
    · exact Res.noConfusion h
    · refine ⟨by simp_all, by omega, ?_⟩
      cases h
      rfl

theorem insertResolver_eq_err {V : Type} {k : Key} {r : Resolver V} {s : St V}
    {e : DiError} {s' : St V} (h : insertResolver k r s = .err e s') :
    hasKey k s = true ∧ e = .duplicate k ∧ s' = s := by
  unfold insertResolver at h
  split at h
  · cases h
    exact ⟨by assumption, rfl, rfl⟩
  · split at h
    · exact Res.noConfusion h
    · exact Res.noConfusion h

theorem insertResolver_of_free {V : Type} {k : Key} {s : St V} (r : Resolver V)
    (hhk : hasKey k s = false) (hms : s.mapShared = 0) :
    insertResolver k r s = .ok () { s with resolvers := setEntry k r s.resolvers } := by
  unfold insertResolver
  rw [if_neg (by simp [hhk]), if_neg (by omega)]

theorem getShared_eq_ok {V : Type} {k : Key} {s : St V} {rc : RcV V} {s' : St V}
    (h : getShared k s = .ok rc s') :
    s' = s ∧ lookupEntry k s.resolvers = some (.shared rc) := by
  unfold getShared at h
  split at h
  · cases h
    exact ⟨rfl, by assumption⟩
  · exact Res.noConfusion h
  · exact Res.noConfusion h

/-! ### The master invariant -/

theorem runCtorWith_ok {V A : Type} {res : Key → St V → Res V (RcV V)}
    (hres : ResolveSpec res) (c : FreeC V A) :
    ∀ (s : St V) (a : A) (s' : St V), runCtorWith res c s = .ok a s' → StRel s s' := by
  induction c with
  | ret a =>
    intro s a' s' h
    simp only [runCtorWith, CRes.ok.injEq] at h
    obtain ⟨-, rfl⟩ := h
    exact stRel_refl _
  | panicC =>
    intro s a' s' h
    exact CRes.noConfusion h
  | resolveK k cont ih =>
    intro s a' s' h
    rw [runCtorWith] at h
    cases hr : res k s with
    | ok rc s1 =>
      rw [hr] at h
      exact stRel_trans (hres.1 _ _ _ _ hr) (ih _ _ _ _ h)
    | err e s1 =>
      rw [hr] at h
      obtain ⟨rfl, -⟩ := hres.2 _ _ _ _ hr
      exact ih _ _ _ _ h
    | panicked p =>
      rw [hr] at h
      exact CRes.noConfusion h
    | fuelOut =>
      rw [hr] at h
      exact CRes.noConfusion h

/-- `getShared` never produces an `Err`: it either succeeds or panics. -/
theorem getShared_ne_err {V : Type} {k : Key} {s : St V} {e : DiError} {s' : St V}
    (h : getShared k s = .err e s') : False := by
  unfold getShared at h
  split at h <;> exact Res.noConfusion h

/-- Master invariant: every amount of fuel gives a resolution semantics
satisfying `ResolveSpec` — a completed `resolve` relates initial and
final state by `StRel`, and a failed `resolve` reports `NotRegistered`
for the requested key and leaves the state untouched. -/
theorem resolveKey_spec {V : Type} : ∀ fuel : Nat, ResolveSpec (V := V) (resolveKey fuel) := by
  intro fuel
  induction fuel with
  | zero =>
    constructor
    · intro k s rc s' h
      exact Res.noConfusion h
    · intro k s e s' h
      exact Res.noConfusion h
  | succ n ih =>
    constructor
    · intro k s rc s' h
      rw [resolveKey] at h
      split at h
      · exact Res.noConfusion h
      · next rc0 hlk =>
        obtain ⟨rfl, -⟩ := getShared_eq_ok h
        exact stRel_refl _
      · next b hlk =>
        split at h
        · exact Res.noConfusion h
        · next hms =>
          split at h
          · next v s2 hrun =>
            have hrel := runCtorWith_ok ih b _ _ _ hrun
            obtain ⟨hm2, hl2, hn2, he2, hb2, hf2⟩ := hrel
            dsimp only at hm2 hl2 hn2 he2 hb2 hf2
            split at h
            · next u s4 hins =>
              obtain ⟨hh4, hm4, rfl⟩ := insertResolver_eq_ok hins
              obtain ⟨rfl, hlk4⟩ := getShared_eq_ok h
              dsimp only at hlk4
              rw [lookupEntry_setEntry_self] at hlk4
              obtain rfl : (⟨s2.nextAddr, v⟩ : RcV V) = rc := by
                simpa using hlk4
              refine ⟨hm2, hl2, Nat.le_succ_of_le hn2, ?_, ?_, ?_⟩
              · intro j
                by_cases hj : j = k
                · subst hj
                  dsimp only
                  rw [hlk, lookupEntry_setEntry_self]
                  trivial
                · have h2 := he2 j
                  rw [lookupEntry_removeEntry_ne hj] at h2
                  dsimp only
                  rw [lookupEntry_setEntry_ne hj]
                  exact h2
              · intro j hjnone
                have hjk : j ≠ k := by
                  intro heq
                  rw [heq, hlk] at hjnone
                  exact Option.noConfusion hjnone
                have hj1 : lookupEntry j (removeEntry k s.resolvers) = none := by
                  rw [lookupEntry_removeEntry_ne hjk]
                  exact hjnone
                have h3 := hb2 j hj1
                rw [List.count_cons_of_ne hjk] at h3
                exact h3
              · intro j hjmem
                exact hf2 j hjmem
            · next e0 s0 hins =>
              exact Res.noConfusion h
            · exact Res.noConfusion h
            · exact Res.noConfusion h
          · exact Res.noConfusion h
          · exact Res.noConfusion h
      · next st code hlk =>
        split at h
        · exact Res.noConfusion h
        · next hcon =>
          have hknot : k ∉ s.lockedCells := by simpa using hcon
          split at h
          · next vst s2 hrun =>
            have hrel := runCtorWith_ok ih (code st) _ _ _ hrun
            obtain ⟨hm2, hl2, hn2, he2, hb2, hf2⟩ := hrel
            dsimp only at hm2 hl2 hn2 he2 hb2 hf2
            injection h with h1 h2
            subst h1
            subst h2
            refine ⟨?_, ?_, Nat.le_succ_of_le hn2, ?_, ?_, ?_⟩
            · dsimp only
              omega
            · dsimp only
              rw [hl2, List.erase_cons_head]
            · intro j
              by_cases hj : j = k
              · subst hj
                dsimp only
                rw [hlk, lookupEntry_setEntry_self]
                rfl
              · have h2 := he2 j
                dsimp only
                rw [lookupEntry_setEntry_ne hj]
                exact h2
            · intro j hjnone
              exact hb2 j hjnone
            · intro j hjmem
              have hjk : j ≠ k := by
                intro heq
                exact hknot (heq ▸ hjmem)
              have h3 := hf2 j (List.mem_cons_of_mem _ hjmem)
              rw [List.count_cons_of_ne hjk] at h3
              exact h3
          · exact Res.noConfusion h
          · exact Res.noConfusion h
    · intro k s e s' h
      rw [resolveKey] at h
      split at h
      · obtain ⟨rfl, rfl⟩ : DiError.notRegistered k = e ∧ s = s' := by
          cases h; exact ⟨rfl, rfl⟩
        exact ⟨rfl, rfl⟩
      · exact (getShared_ne_err h).elim
      · next b hlk =>
        split at h
        · exact Res.noConfusion h
        · next hms =>
          split at h
          · next v s2 hrun =>
            have hrel := runCtorWith_ok ih b _ _ _ hrun
            obtain ⟨hm2, hl2, hn2, he2, hb2, hf2⟩ := hrel
            dsimp only at he2
            split at h
            · next u s4 hins =>
              exact absurd h (fun hh => getShared_ne_err hh)
            · next e0 s0 hins =>
              obtain ⟨hh0, rfl, rfl⟩ := insertResolver_eq_err hins
              have h2 := he2 k
              rw [lookupEntry_removeEntry_self] at h2
              have h2n := h2.none_eq
              rw [hasKey] at hh0
              dsimp only at hh0
              rw [h2n] at hh0
              exact Bool.noConfusion hh0
            · exact Res.noConfusion h
            · exact Res.noConfusion h
          · exact Res.noConfusion h
          · exact Res.noConfusion h
      · next st code hlk =>
        split at h
        · exact Res.noConfusion h
        · next hcon =>
          split at h
          · exact Res.noConfusion h
          · exact Res.noConfusion h
          · exact Res.noConfusion h

/-! ### Step lemmas for each dispatch arm of `resolve` -/

/-- Resolving an unregistered key fails with `NotRegistered` and returns
the state untouched. -/
theorem resolveKey_none {V : Type} (n : Nat) {k : Key} {s : St V}
    (hlk : lookupEntry k s.resolvers = none) :
    resolveKey (n + 1) k s = .err (.notRegistered k) s := by
  rw [resolveKey, hlk]

/-- Resolving a `Shared` entry returns a clone of the stored handle and
does not change the state at all. -/
theorem resolveKey_shared {V : Type} (n : Nat) {k : Key} {s : St V} {rc : RcV V}
    (hlk : lookupEntry k s.resolvers = some (.shared rc)) :
    resolveKey (n + 1) k s = .ok rc s := by
  rw [resolveKey, hlk]
  unfold getShared
  rw [hlk]

/-- Forward computation of the `Builder` arm: if the builder body
completes, the entry is re-inserted as `Shared` holding a freshly
allocated handle to the constructed value. -/
theorem resolveKey_builder {V : Type} (n : Nat) {k : Key} {s : St V} {b : FreeC V V}
    (hlk : lookupEntry k s.resolvers = some (.builder b))
    (hms : s.mapShared = 0)
    {v : V} {s2 : St V}
    (hrun : runCtorWith (resolveKey n) b
        { s with resolvers := removeEntry k s.resolvers,
                 builderRuns := k :: s.builderRuns } = .ok v s2)
    (hk2 : lookupEntry k s2.resolvers = none)
    (hm2 : s2.mapShared = 0) :
    resolveKey (n + 1) k s = .ok ⟨s2.nextAddr, v⟩
      { s2 with nextAddr := s2.nextAddr + 1,
                resolvers := setEntry k (.shared ⟨s2.nextAddr, v⟩) s2.resolvers } := by
  have hins : insertResolver k (Resolver.shared ⟨s2.nextAddr, v⟩)
      { s2 with nextAddr := s2.nextAddr + 1 }
      = .ok () { s2 with
                 nextAddr := s2.nextAddr + 1,
                 resolvers := setEntry k (Resolver.shared ⟨s2.nextAddr, v⟩) s2.resolvers } :=
    insertResolver_of_free _ (by simp [hasKey, hk2]) (by simpa using hm2)
  simp only [resolveKey, hlk, if_neg (show ¬s.mapShared ≠ 0 from by omega), hrun, hins,
    getShared, lookupEntry_setEntry_self]

/-- Forward computation of the `Factory` arm: the closure runs with the
map's shared borrow and its own cell's exclusive borrow held; afterwards
the borrows are released, the evolved captured state is written back and
a fresh handle to the produced value is returned. -/
theorem resolveKey_factory {V : Type} (n : Nat) {k : Key} {s : St V} {st : V}
    {code : V → FreeC V (V × V)}
    (hlk : lookupEntry k s.resolvers = some (.factory st code))
    (hcon : k ∉ s.lockedCells)
    {vst : V × V} {s2 : St V}
    (hrun : runCtorWith (resolveKey n) (code st)
        { s with mapShared := s.mapShared + 1,
                 lockedCells := k :: s.lockedCells,
                 factoryRuns := k :: s.factoryRuns } = .ok vst s2) :
    resolveKey (n + 1) k s = .ok ⟨s2.nextAddr, vst.1⟩
      { s2 with mapShared := s2.mapShared - 1,
                lockedCells := s2.lockedCells.erase k,
                resolvers := setEntry k (.factory vst.2 code) s2.resolvers,
                nextAddr := s2.nextAddr + 1 } := by
  simp only [resolveKey, hlk,
    if_neg (show ¬s.lockedCells.contains k = true from by simpa using hcon), hrun]

/-- Forward computation of the `Factory` arm when the closure's body
panics (or runs out of fuel): the outcome propagates. -/
theorem resolveKey_factory_panicked {V : Type} (n : Nat) {k : Key} {s : St V} {st : V}
    {code : V → FreeC V (V × V)}
    (hlk : lookupEntry k s.resolvers = some (.factory st code))
    (hcon : k ∉ s.lockedCells)
    {p : PanicKind}
    (hrun : runCtorWith (resolveKey n) (code st)
        { s with mapShared := s.mapShared + 1,
                 lockedCells := k :: s.lockedCells,
                 factoryRuns := k :: s.factoryRuns } = .panicked p) :
    resolveKey (n + 1) k s = .panicked p := by
  simp only [resolveKey, hlk,
    if_neg (show ¬s.lockedCells.contains k = true from by simpa using hcon), hrun]

/-- Resolving a key registered as `Builder` while a shared borrow of the
map is outstanding (`mapShared ≠ 0`) panics at the map's `borrow_mut`. -/
theorem resolveKey_builder_borrowMut {V : Type} (n : Nat) {k : Key} {s : St V}
    {b : FreeC V V}
    (hlk : lookupEntry k s.resolvers = some (.builder b))
    (hms : s.mapShared ≠ 0) :
    resolveKey (n + 1) k s = .panicked .mapBorrowMut := by
  simp only [resolveKey, hlk, if_pos hms]

/-- Re-entering a factory whose cell is already mutably borrowed panics
at the cell's `borrow_mut`. -/
theorem resolveKey_factory_locked {V : Type} (n : Nat) {k : Key} {s : St V} {st : V}
    {code : V → FreeC V (V × V)}
    (hlk : lookupEntry k s.resolvers = some (.factory st code))
    (hcon : k ∈ s.lockedCells) :
    resolveKey (n + 1) k s = .panicked .cellBorrowMut := by
  simp only [resolveKey, hlk,
    if_pos (show s.lockedCells.contains k = true from by simpa using hcon)]

/-! ### Inversion of a completed `resolve` on `Builder`/`Factory` entries -/

/-- A completed resolution of a `Builder` entry necessarily went through
`consume_builder`: the builder body ran exactly once starting from the
state with the entry removed, no borrow was outstanding, and the result
state carries the memoized `Shared` entry holding the freshly allocated
handle. -/
theorem resolveKey_builder_inv {V : Type} {fuel : Nat} {k : Key} {s : St V}
    {b : FreeC V V} {rc : RcV V} {s' : St V}
    (hlk : lookupEntry k s.resolvers = some (.builder b))
    (h : resolveKey fuel k s = .ok rc s') :
    ∃ (n : Nat) (v : V) (s2 : St V), fuel = n + 1 ∧ s.mapShared = 0 ∧
      runCtorWith (resolveKey n) b
        { s with resolvers := removeEntry k s.resolvers,
                 builderRuns := k :: s.builderRuns } = .ok v s2 ∧
      lookupEntry k s2.resolvers = none ∧ s2.mapShared = 0 ∧
      rc = ⟨s2.nextAddr, v⟩ ∧
      s' = { s2 with nextAddr := s2.nextAddr + 1,
                     resolvers := setEntry k (.shared ⟨s2.nextAddr, v⟩) s2.resolvers } := by
  cases fuel with
  | zero => exact Res.noConfusion h
  | succ n =>
    rw [resolveKey] at h
    split at h
    · next heq =>
      rw [hlk] at heq
      exact Option.noConfusion heq
    · next rc0 heq =>
      rw [hlk] at heq
      simp at heq
    · next b0 heq =>
      rw [hlk] at heq
      obtain rfl : b = b0 := by simpa using heq
      split at h
      · exact Res.noConfusion h
      · next hms =>
        split at h
        · next v s2 hrun =>
          have hrel := runCtorWith_ok (resolveKey_spec n) b _ _ _ hrun
          obtain ⟨hm2, hl2, hn2, he2, hb2, hf2⟩ := hrel
          dsimp only at hm2 he2
          have hk2 : lookupEntry k s2.resolvers = none := by
            have h2 := he2 k
            rw [lookupEntry_removeEntry_self] at h2
            exact h2.none_eq
          split at h
          · next u s4 hins =>
            obtain ⟨hh4, hm4, rfl⟩ := insertResolver_eq_ok hins
            obtain ⟨rfl, hlk4⟩ := getShared_eq_ok h
            dsimp only at hlk4
            rw [lookupEntry_setEntry_self] at hlk4
            obtain rfl : (⟨s2.nextAddr, v⟩ : RcV V) = rc := by simpa using hlk4
            exact ⟨n, v, s2, rfl, by omega, hrun, hk2, by omega, rfl, rfl⟩
          · exact Res.noConfusion h
          · exact Res.noConfusion h
          · exact Res.noConfusion h
        · exact Res.noConfusion h
        · exact Res.noConfusion h
    · next st0 code0 heq =>
      rw [hlk] at heq
      simp at heq

/-- A completed resolution of a `Factory` entry necessarily went through
`call_factory`: the cell was not already borrowed, the closure ran once
from the state with the borrows registered, and the result is a fresh
handle with the evolved captured state written back. -/
theorem resolveKey_factory_inv {V : Type} {fuel : Nat} {k : Key} {s : St V}
    {st : V} {code : V → FreeC V (V × V)} {rc : RcV V} {s' : St V}
    (hlk : lookupEntry k s.resolvers = some (.factory st code))
    (h : resolveKey fuel k s = .ok rc s') :
    ∃ (n : Nat) (vst : V × V) (s2 : St V), fuel = n + 1 ∧ k ∉ s.lockedCells ∧
      runCtorWith (resolveKey n) (code st)
        { s with mapShared := s.mapShared + 1,
                 lockedCells := k :: s.lockedCells,
                 factoryRuns := k :: s.factoryRuns } = .ok vst s2 ∧
      rc = ⟨s2.nextAddr, vst.1⟩ ∧
      s' = { s2 with mapShared := s2.mapShared - 1,
                     lockedCells := s2.lockedCells.erase k,
                     resolvers := setEntry k (.factory vst.2 code) s2.resolvers,
                     nextAddr := s2.nextAddr + 1 } := by
  cases fuel with
  | zero => exact Res.noConfusion h
  | succ n =>
    rw [resolveKey] at h
    split at h
    · next heq =>
      rw [hlk] at heq
      exact Option.noConfusion heq
    · next rc0 heq =>
      rw [hlk] at heq
      simp at heq
    · next b0 heq =>
      rw [hlk] at heq
      simp at heq
    · next st0 code0 heq =>
      rw [hlk] at heq
      simp only [Option.some.injEq, Resolver.factory.injEq] at heq
      obtain ⟨rfl, rfl⟩ := heq
      split at h
      · exact Res.noConfusion h
      · next hcon =>
        split at h
        · next vst s2 hrun =>
          injection h with h1 h2
          subst h1
          subst h2
          exact ⟨n, vst, s2, rfl, by simpa using hcon, hrun, rfl, rfl⟩
        · exact Res.noConfusion h
        · exact Res.noConfusion h

/-! ### Registration helpers -/

/-- `Container::insert` on an occupied key: the duplicate error, with the
state returned unchanged. -/
theorem insertResolver_of_present {V : Type} {k : Key} {s : St V} (r : Resolver V)
    (hh : hasKey k s = true) :
    insertResolver k r s = .err (.duplicate k) s := by
  unfold insertResolver
  rw [if_pos hh]

/-- Any registration request on a free key succeeds and installs exactly
its entry. -/
theorem applyReg_free {V : Type} (r1 : RegOp V) (k : Key) {s : St V}
    (hfree : lookupEntry k s.resolvers = none) (hms : s.mapShared = 0) :
    ∃ s1, applyReg r1 k s = .ok () s1 ∧
      s1.resolvers = setEntry k (regEntry r1 s) s.resolvers := by
  cases r1 with
  | val v =>
    exact ⟨_, insertResolver_of_free _ (by simp [hasKey, hfree]) (by simpa using hms), rfl⟩
  | bld b =>
    exact ⟨_, insertResolver_of_free _ (by simp [hasKey, hfree]) (by simpa using hms), rfl⟩
  | fac st code =>
    exact ⟨_, insertResolver_of_free _ (by simp [hasKey, hfree]) (by simpa using hms), rfl⟩

/-- Any registration request on an occupied key fails with the
duplicate-registration error and leaves the resolver map as it was. -/
theorem applyReg_present {V : Type} (r2 : RegOp V) (k : Key) (s1 : St V)
    (hh : hasKey k s1 = true) :
    ∃ s2, applyReg r2 k s1 = .err (.duplicate k) s2 ∧ s2.resolvers = s1.resolvers := by
  cases r2 with
  | val v => exact ⟨_, insertResolver_of_present _ hh, rfl⟩
  | bld b => exact ⟨_, insertResolver_of_present _ hh, rfl⟩
  | fac st code => exact ⟨_, insertResolver_of_present _ hh, rfl⟩

/-! ### Claim theorems -/

/-- C4: for every key with no entry in the registry, `resolve` returns a
`NotRegistered` error identifying that key, and the failed resolution
hands back the state completely unchanged. -/
theorem claim_C4_resolve_unregistered {V : Type} (fuel : Nat) (k : Key) (s : St V)
    (hfuel : 1 ≤ fuel)
    (hlk : lookupEntry k s.resolvers = none) :
    resolveKey fuel k s = .err (.notRegistered k) s := by
  cases fuel with
  | zero => omega
  | succ n => exact resolveKey_none n hlk

/-- Witness for C4 on a concrete container. -/
theorem claim_C4_witness :
    1 ≤ 5 ∧ lookupEntry 0 (emptySt Int).resolvers = none ∧
      resolveKey 5 0 (emptySt Int) = .err (.notRegistered 0) (emptySt Int) :=
  ⟨by decide, rfl, claim_C4_resolve_unregistered 5 0 (emptySt Int) (by decide) rfl⟩

/-- C6: register/resolve round-trip — after a successful `register` of a
value under a free key, `resolve` for that key succeeds and the returned
handle holds exactly the registered value (the value erased into the
registry is recovered unchanged), with the state not further modified by
the resolution. -/
theorem claim_C6_register_resolve_roundtrip {V : Type} (fuel : Nat) (k : Key) (v : V)
    (s : St V) (hfuel : 1 ≤ fuel)
    (hfree : lookupEntry k s.resolvers = none) (hms : s.mapShared = 0) :
    ∃ s1, register k v s = .ok () s1 ∧
      resolveKey fuel k s1 = .ok ⟨s.nextAddr, v⟩ s1 := by
  cases fuel with
  | zero => omega
  | succ n =>
    refine ⟨_, insertResolver_of_free _ (by simp [hasKey, hfree]) (by simpa using hms), ?_⟩
    exact resolveKey_shared n (lookupEntry_setEntry_self _ _ _)

/-- Witness for C6: `register(42)` then `resolve` yields a handle whose
value equals `42`. -/
theorem claim_C6_witness :
    1 ≤ 5 ∧ lookupEntry 0 (emptySt Int).resolvers = none ∧
      (emptySt Int).mapShared = 0 ∧
      (∃ s1, register 0 (42 : Int) (emptySt Int) = .ok () s1 ∧
        resolveKey 5 0 s1 = .ok ⟨0, 42⟩ s1) :=
  ⟨by decide, rfl, rfl,
    claim_C6_register_resolve_roundtrip 5 0 42 (emptySt Int) (by decide) rfl rfl⟩

/-- C9 (counterexample): `register_automatic_factory` does not return a
`NotImplemented` error as an ordinary recoverable result — on a concrete
container it panics (`unimplemented!`), and its outcome is not an `Err`
of any kind. -/
theorem claim_C9_cex :
    registerAutomaticFactory (V := Int) 0 (emptySt Int) = .panicked .unimplemented ∧
      isErr (registerAutomaticFactory (V := Int) 0 (emptySt Int)) = false :=
  ⟨rfl, rfl⟩

/-- C9 (amended): `register_automatic_factory` always panics with the
`unimplemented!` message — it never returns to the caller (neither
success nor error) and performs no registry mutation before the panic. -/
theorem claim_C9_amended {V : Type} (k : Key) (s : St V) :
    registerAutomaticFactory k s = .panicked .unimplemented := rfl

/-- C3: for every key and every pair of registration requests
(`register`, `register_builder` or `register_factory`): the first call
on a free key succeeds and installs its entry; the second call fails
with the duplicate-registration error and leaves the resolver map
unchanged — the first registration's entry is still in place and is
never overwritten. -/
theorem claim_C3_duplicate_registration {V : Type} (r1 r2 : RegOp V) (k : Key) (s : St V)
    (hfree : lookupEntry k s.resolvers = none) (hms : s.mapShared = 0) :
    ∃ s1 s2, applyReg r1 k s = .ok () s1 ∧
      lookupEntry k s1.resolvers = some (regEntry r1 s) ∧
      applyReg r2 k s1 = .err (.duplicate k) s2 ∧
      s2.resolvers = s1.resolvers ∧
      lookupEntry k s2.resolvers = some (regEntry r1 s) := by
  obtain ⟨s1, hap1, hres1⟩ := applyReg_free r1 k hfree hms
  have hlk1 : lookupEntry k s1.resolvers = some (regEntry r1 s) := by
    rw [hres1, lookupEntry_setEntry_self]
  obtain ⟨s2, hap2, hres2⟩ := applyReg_present r2 k s1 (by simp [hasKey, hlk1])
  refine ⟨s1, s2, hap1, hlk1, hap2, hres2, ?_⟩
  rw [hres2, hlk1]

/-- Witness for C3: registering under one key twice (a value, then a
builder) on the empty container. -/
theorem claim_C3_witness :
    lookupEntry 0 (emptySt Int).resolvers = none ∧ (emptySt Int).mapShared = 0 ∧
      (∃ s1 s2,
        applyReg (RegOp.val (42 : Int)) 0 (emptySt Int) = .ok () s1 ∧
        lookupEntry 0 s1.resolvers = some (regEntry (RegOp.val 42) (emptySt Int)) ∧
        applyReg (RegOp.bld (.ret (7 : Int))) 0 s1 = .err (.duplicate 0) s2 ∧
        s2.resolvers = s1.resolvers ∧
        lookupEntry 0 s2.resolvers = some (regEntry (RegOp.val 42) (emptySt Int))) :=
  ⟨rfl, rfl,
    claim_C3_duplicate_registration (RegOp.val 42) (RegOp.bld (.ret 7)) 0 (emptySt Int) rfl rfl⟩

/-- Iterated resolution of a `Shared` entry: every call returns the same
stored handle and the state never changes. -/
theorem resolveIter_shared {V : Type} (n steps : Nat) {k : Key} {s : St V} {rc : RcV V}
    (hlk : lookupEntry k s.resolvers = some (.shared rc)) :
    resolveIter (n + 1) k steps s = List.replicate steps (.ok rc s) := by
  induction steps with
  | zero => rfl
  | succ m ihm =>
    rw [resolveIter, resolveKey_shared n hlk]
    show (Res.ok rc s :: resolveIter (n + 1) k m s) = _
    rw [ihm, List.replicate_succ]

/-- C1: for a key registered as `Builder`, a completed first resolution
runs the builder constructor exactly once (the ghost invocation count for
that key grows by exactly one), replaces the registry entry with a
`Shared` entry holding the constructed handle, and every later resolution
— any number of them — returns that identical memoized handle without
changing the state, so the constructor is never invoked again. -/
theorem claim_C1_builder_memoized {V : Type} (fuel N : Nat) (k : Key) (s : St V)
    (b : FreeC V V) (rc : RcV V) (s' : St V)
    (hlk : lookupEntry k s.resolvers = some (.builder b))
    (hfirst : resolveKey fuel k s = .ok rc s') :
    lookupEntry k s'.resolvers = some (.shared rc) ∧
    List.count k s'.builderRuns = List.count k s.builderRuns + 1 ∧
    resolveIter fuel k N s = List.replicate N (.ok rc s') := by
  obtain ⟨n, v, s2, rfl, hms, hrun, hk2, hm2, rfl, rfl⟩ := resolveKey_builder_inv hlk hfirst
  have hrel := runCtorWith_ok (resolveKey_spec n) b _ _ _ hrun
  obtain ⟨hm2', hl2, hn2, he2, hb2, hf2⟩ := hrel
  dsimp only at hb2
  have hshared : lookupEntry k
      (setEntry k (Resolver.shared ⟨s2.nextAddr, v⟩) s2.resolvers) =
      some (.shared ⟨s2.nextAddr, v⟩) := lookupEntry_setEntry_self _ _ _
  have hcount : List.count k s2.builderRuns = List.count k s.builderRuns + 1 := by
    have h3 := hb2 k (lookupEntry_removeEntry_self _ _)
    rw [List.count_cons_self] at h3
    exact h3
  refine ⟨hshared, hcount, ?_⟩
  cases N with
  | zero => rfl
  | succ m =>
    rw [resolveIter, hfirst]
    show (Res.ok _ _ :: resolveIter (n + 1) k m _) = _
    rw [resolveIter_shared n m hshared, List.replicate_succ]

/-- Witness for C1: a builder for key 3 returning 42, resolved twice on a
container holding only that builder. -/
theorem claim_C1_witness :
    lookupEntry 3 builderSt.resolvers = some (.builder (.ret 42)) ∧
    resolveKey 3 3 builderSt = .ok ⟨0, 42⟩ builderSt1 ∧
    (lookupEntry 3 builderSt1.resolvers = some (.shared ⟨0, 42⟩) ∧
      List.count 3 builderSt1.builderRuns = List.count 3 builderSt.builderRuns + 1 ∧
      resolveIter 3 3 2 builderSt = List.replicate 2 (.ok ⟨0, 42⟩ builderSt1)) :=
  ⟨rfl, rfl, claim_C1_builder_memoized 3 2 3 builderSt (.ret 42) ⟨0, 42⟩ builderSt1 rfl rfl⟩

/-- C2: for a key registered as `Factory`, every completed resolution
invokes the stored closure exactly once (the ghost invocation count grows
by one), returns a freshly allocated handle (its address is new), and
never replaces the registry entry: afterwards the key still holds a
`Factory` with the same closure code, only its captured state having
evolved. -/
theorem claim_C2_factory_fresh_instances {V : Type} (fuel : Nat) (k : Key) (s : St V)
    (st : V) (code : V → FreeC V (V × V)) (rc : RcV V) (s' : St V)
    (hlk : lookupEntry k s.resolvers = some (.factory st code))
    (h : resolveKey fuel k s = .ok rc s') :
    (∃ st', lookupEntry k s'.resolvers = some (.factory st' code)) ∧
    List.count k s'.factoryRuns = List.count k s.factoryRuns + 1 ∧
    s.nextAddr ≤ rc.addr ∧ rc.addr < s'.nextAddr := by
  obtain ⟨n, vst, s2, rfl, hcon, hrun, rfl, rfl⟩ := resolveKey_factory_inv hlk h
  have hrel := runCtorWith_ok (resolveKey_spec n) (code st) _ _ _ hrun
  obtain ⟨hm2, hl2, hn2, he2, hb2, hf2⟩ := hrel
  dsimp only at hn2 hf2
  refine ⟨⟨vst.2, ?_⟩, ?_, hn2, Nat.lt_succ_self _⟩
  · dsimp only
    exact lookupEntry_setEntry_self _ _ _
  · have h3 := hf2 k (List.mem_cons_self _ _)
    rw [List.count_cons_self] at h3
    exact h3

/-- Witness for C2: the spec's counter example — the first resolution of
the factory yields 42 at a fresh address, the second yields 41 at another
fresh address; each call advances the captured counter and leaves the
entry a `Factory` with the same closure. -/
theorem claim_C2_witness :
    lookupEntry 2 counterSt.resolvers = some (.factory 0 counterFactory) ∧
    resolveKey 3 2 counterSt = .ok ⟨1, 42⟩ counterSt1 ∧
    lookupEntry 2 counterSt1.resolvers = some (.factory 1 counterFactory) ∧
    resolveKey 3 2 counterSt1 = .ok ⟨2, 41⟩ counterSt2 ∧
    ((∃ st', lookupEntry 2 counterSt1.resolvers = some (.factory st' counterFactory)) ∧
      List.count 2 counterSt1.factoryRuns = List.count 2 counterSt.factoryRuns + 1 ∧
      counterSt.nextAddr ≤ (⟨1, (42 : Int)⟩ : RcV Int).addr ∧
      (⟨1, (42 : Int)⟩ : RcV Int).addr < counterSt1.nextAddr) ∧
    ((∃ st', lookupEntry 2 counterSt2.resolvers = some (.factory st' counterFactory)) ∧
      List.count 2 counterSt2.factoryRuns = List.count 2 counterSt1.factoryRuns + 1 ∧
      counterSt1.nextAddr ≤ (⟨2, (41 : Int)⟩ : RcV Int).addr ∧
      (⟨2, (41 : Int)⟩ : RcV Int).addr < counterSt2.nextAddr) :=
  ⟨rfl, rfl, rfl, rfl,
    claim_C2_factory_fresh_instances 3 2 counterSt 0 counterFactory ⟨1, 42⟩ counterSt1 rfl rfl,
    claim_C2_factory_fresh_instances 3 2 counterSt1 1 counterFactory ⟨2, 41⟩ counterSt2 rfl rfl⟩

/-- C5: a `Builder` entry is removed from the registry before its
constructor runs, so a builder for key `k` that resolves `k` itself
during construction sees a `NotRegistered k` error from the nested call
(never a deadlock, a hang, nor a second invocation of the builder): the
overall resolution completes, returning the value the builder computes
from exactly that `NotRegistered k` result, with the builder's ghost
invocation log extended by that single run. -/
theorem claim_C5_self_reference_not_registered {V : Type} (n : Nat) (k : Key) (s : St V)
    (f : Except DiError (RcV V) → V)
    (hlk : lookupEntry k s.resolvers =
      some (.builder (.resolveK k (fun r => .ret (f r)))))
    (hms : s.mapShared = 0) :
    resolveKey (n + 2) k s =
      .ok ⟨s.nextAddr, f (.error (.notRegistered k))⟩
        { s with
          resolvers := setEntry k
              (.shared ⟨s.nextAddr, f (.error (.notRegistered k))⟩)
              (removeEntry k s.resolvers),
          nextAddr := s.nextAddr + 1,
          builderRuns := k :: s.builderRuns } := by
  have hs1 : lookupEntry k (removeEntry k s.resolvers) = none :=
    lookupEntry_removeEntry_self _ _
  have hrun : runCtorWith (resolveKey (n + 1))
      (FreeC.resolveK k (fun r => FreeC.ret (f r)))
      { s with resolvers := removeEntry k s.resolvers,
               builderRuns := k :: s.builderRuns }
      = .ok (f (.error (.notRegistered k)))
        { s with resolvers := removeEntry k s.resolvers,
                 builderRuns := k :: s.builderRuns } := by
    rw [runCtorWith, resolveKey_none n hs1]
    rfl
  exact resolveKey_builder (n + 1) hlk hms hrun hs1 hms

/-- Witness for C5: resolving the self-referential builder of `selfSt`
yields -7, proving the nested call saw `NotRegistered 4`. -/
theorem claim_C5_witness :
    lookupEntry 4 selfSt.resolvers =
      some (.builder (.resolveK 4 (fun r => .ret (selfProbe r)))) ∧
    selfSt.mapShared = 0 ∧
    resolveKey 3 4 selfSt = .ok ⟨0, -7⟩
      { selfSt with
        resolvers := setEntry 4
            (.shared ⟨0, selfProbe (.error (.notRegistered 4))⟩)
            (removeEntry 4 selfSt.resolvers),
        nextAddr := 1,
        builderRuns := [4] } :=
  ⟨rfl, rfl, claim_C5_self_reference_not_registered 1 4 selfSt selfProbe rfl rfl⟩

/-- C8: re-entrant resolution does not conflict with the in-flight
mutation — a builder for key `kA` that resolves an already-registered
`Shared` key `kB` inside its own construction succeeds: the nested call
returns the stored handle for `kB` (witnessed by the builder's body being
applied to exactly `Ok` of that handle), and the resolution of `kA`
completes, memoizing and returning the value the builder computes from
it. -/
theorem claim_C8_reentrant_resolution {V : Type} (n : Nat) (kA kB : Key) (s : St V)
    (f : Except DiError (RcV V) → V) (rcB : RcV V)
    (hA : lookupEntry kA s.resolvers =
      some (.builder (.resolveK kB (fun r => .ret (f r)))))
    (hB : lookupEntry kB s.resolvers = some (.shared rcB))
    (hms : s.mapShared = 0) :
    resolveKey (n + 2) kA s = .ok ⟨s.nextAddr, f (.ok rcB)⟩
      { s with
        resolvers := setEntry kA (.shared ⟨s.nextAddr, f (.ok rcB)⟩)
            (removeEntry kA s.resolvers),
        nextAddr := s.nextAddr + 1,
        builderRuns := kA :: s.builderRuns } := by
  have hne : kB ≠ kA := by
    intro heq
    rw [heq, hA] at hB
    simp at hB
  have hs1 : lookupEntry kB (removeEntry kA s.resolvers) = some (.shared rcB) := by
    rw [lookupEntry_removeEntry_ne hne]
    exact hB
  have hrun : runCtorWith (resolveKey (n + 1))
      (FreeC.resolveK kB (fun r => FreeC.ret (f r)))
      { s with resolvers := removeEntry kA s.resolvers,
               builderRuns := kA :: s.builderRuns }
      = .ok (f (.ok rcB))
        { s with resolvers := removeEntry kA s.resolvers,
                 builderRuns := kA :: s.builderRuns } := by
    rw [runCtorWith, resolveKey_shared n hs1]
    rfl
  exact resolveKey_builder (n + 1) hA hms hrun (lookupEntry_removeEntry_self _ _) hms

/-- Witness for C8: resolving key 3 of `depSt` (a builder that resolves
the shared key 1 holding 43 and subtracts one) yields 42. -/
theorem claim_C8_witness :
    lookupEntry 3 depSt.resolvers =
      some (.builder (.resolveK 1 (fun r => .ret (depProbe r)))) ∧
    lookupEntry 1 depSt.resolvers = some (.shared ⟨0, 43⟩) ∧
    depSt.mapShared = 0 ∧
    resolveKey 3 3 depSt = .ok ⟨1, 42⟩
      { depSt with
        resolvers := setEntry 3 (.shared ⟨1, 42⟩)
            (removeEntry 3 depSt.resolvers),
        nextAddr := 2,
        builderRuns := [3] } :=
  ⟨rfl, rfl, rfl,
    claim_C8_reentrant_resolution 1 3 1 depSt depProbe ⟨0, 43⟩ rfl rfl rfl⟩

/-- C10: while a factory closure executes, a shared borrow of the
resolver map and the exclusive borrow of that factory's own cell are held
for the whole call.  Consequently
(1) a nested resolve of a `Shared` entry from inside the factory succeeds
    (it only needs another shared borrow) and the whole factory call
    completes normally;
(2) a nested resolve of a key still registered as `Builder` panics at the
    map's `borrow_mut` instead of returning an error;
(3) a nested resolve that re-enters the same factory's own key panics at
    the cell's `borrow_mut` instead of returning an error. -/
theorem claim_C10_nested_borrow_discipline {V : Type} :
    (∀ (n : Nat) (kf ks : Key) (s : St V) (st : V)
        (q : V → Except DiError (RcV V) → V × V) (rcS : RcV V),
      lookupEntry kf s.resolvers =
          some (.factory st (fun i => .resolveK ks (fun r => .ret (q i r)))) →
      lookupEntry ks s.resolvers = some (.shared rcS) →
      kf ∉ s.lockedCells →
      resolveKey (n + 2) kf s = .ok ⟨s.nextAddr, (q st (.ok rcS)).1⟩
        { s with
          resolvers := setEntry kf
              (.factory (q st (.ok rcS)).2 (fun i => .resolveK ks (fun r => .ret (q i r))))
              s.resolvers,
          nextAddr := s.nextAddr + 1,
          factoryRuns := kf :: s.factoryRuns }) ∧
    (∀ (n : Nat) (kf kb : Key) (s : St V) (st : V)
        (c : V → Except DiError (RcV V) → FreeC V (V × V)) (b : FreeC V V),
      lookupEntry kf s.resolvers =
          some (.factory st (fun i => .resolveK kb (c i))) →
      lookupEntry kb s.resolvers = some (.builder b) →
      kf ∉ s.lockedCells →
      resolveKey (n + 2) kf s = .panicked .mapBorrowMut) ∧
    (∀ (n : Nat) (kf : Key) (s : St V) (st : V)
        (c : V → Except DiError (RcV V) → FreeC V (V × V)),
      lookupEntry kf s.resolvers =
          some (.factory st (fun i => .resolveK kf (c i))) →
      kf ∉ s.lockedCells →
      resolveKey (n + 2) kf s = .panicked .cellBorrowMut) := by
  refine ⟨?_, ?_, ?_⟩
  · intro n kf ks s st q rcS hf hs hcon
    have hs1 : lookupEntry ks
        ({ s with mapShared := s.mapShared + 1,
                  lockedCells := kf :: s.lockedCells,
                  factoryRuns := kf :: s.factoryRuns } : St V).resolvers
        = some (.shared rcS) := hs
    have hrun : runCtorWith (resolveKey (n + 1))
        ((fun i => FreeC.resolveK ks (fun r => FreeC.ret (q i r))) st)
        { s with mapShared := s.mapShared + 1,
                 lockedCells := kf :: s.lockedCells,
                 factoryRuns := kf :: s.factoryRuns }
        = .ok (q st (.ok rcS))
          { s with mapShared := s.mapShared + 1,
                   lockedCells := kf :: s.lockedCells,
                   factoryRuns := kf :: s.factoryRuns } := by
      show runCtorWith (resolveKey (n + 1))
          (FreeC.resolveK ks (fun r => FreeC.ret (q st r))) _ = _
      rw [runCtorWith, resolveKey_shared (n := n) hs1]
      rfl
    refine (resolveKey_factory (n + 1) hf hcon hrun).trans ?_
    simp
  · intro n kf kb s st c b hf hb hcon
    have hb1 : lookupEntry kb
        ({ s with mapShared := s.mapShared + 1,
                  lockedCells := kf :: s.lockedCells,
                  factoryRuns := kf :: s.factoryRuns } : St V).resolvers
        = some (.builder b) := hb
    have hrun : runCtorWith (resolveKey (n + 1))
        ((fun i => FreeC.resolveK kb (c i)) st)
        { s with mapShared := s.mapShared + 1,
                 lockedCells := kf :: s.lockedCells,
                 factoryRuns := kf :: s.factoryRuns }
        = .panicked .mapBorrowMut := by
      show runCtorWith (resolveKey (n + 1)) (FreeC.resolveK kb (c st)) _ = _
      rw [runCtorWith, resolveKey_builder_borrowMut (n := n) hb1 (by dsimp only; omega)]
    exact resolveKey_factory_panicked (n + 1) hf hcon hrun
  · intro n kf s st c hf hcon
    have hf1 : lookupEntry kf
        ({ s with mapShared := s.mapShared + 1,
                  lockedCells := kf :: s.lockedCells,
                  factoryRuns := kf :: s.factoryRuns } : St V).resolvers
        = some (.factory st (fun i => .resolveK kf (c i))) := hf
    have hrun : runCtorWith (resolveKey (n + 1))
        ((fun i => FreeC.resolveK kf (c i)) st)
        { s with mapShared := s.mapShared + 1,
                 lockedCells := kf :: s.lockedCells,
                 factoryRuns := kf :: s.factoryRuns }
        = .panicked .cellBorrowMut := by
      show runCtorWith (resolveKey (n + 1)) (FreeC.resolveK kf (c st)) _ = _
      rw [runCtorWith,
        resolveKey_factory_locked (n := n) hf1 (List.mem_cons_self _ _)]
    exact resolveKey_factory_panicked (n + 1) hf hcon hrun

/-- Witness for C10: on concrete containers — the factory of
`nestedOkSt` succeeds resolving the shared key 1 (yielding 5) with the
counter written back; the factory of `nestedBuilderSt` panics at the map
borrow when its body resolves the builder key 3; the factory of
`nestedSelfSt` panics at the cell borrow when its body re-enters key 2. -/
theorem claim_C10_witness :
    resolveKey 4 2 nestedOkSt = .ok ⟨1, 5⟩
      { nestedOkSt with
        resolvers := setEntry 2
            (.factory 1 (fun i => .resolveK 1 (fun r => .ret (nestedOkCode i r))))
            nestedOkSt.resolvers,
        nextAddr := 2,
        factoryRuns := [2] } ∧
    resolveKey 4 2 nestedBuilderSt = .panicked .mapBorrowMut ∧
    resolveKey 4 2 nestedSelfSt = .panicked .cellBorrowMut :=
  ⟨(claim_C10_nested_borrow_discipline (V := Int)).1 2 2 1 nestedOkSt 0
      nestedOkCode ⟨0, 5⟩ rfl rfl (by decide),
    (claim_C10_nested_borrow_discipline (V := Int)).2.1 2 2 3 nestedBuilderSt 0
      nestedBadCont (.ret 9) rfl rfl (by decide),
    (claim_C10_nested_borrow_discipline (V := Int)).2.2 2 2 nestedSelfSt 0
      nestedBadCont rfl (by decide)⟩

/-- C7: per-key entry state machine — one completed public operation
(registration, attempted re-registration, or resolution) either acts on
a key that was absent before it (a first registration installs exactly
one entry there) or relates the key's entry by `EntryRel`: `Shared`
entries are immutable, a `Builder` entry either stays or becomes `Shared`
(its only transition, taken on first resolution), a `Factory` entry keeps
its closure (only its captured state evolving), and no entry is ever
removed or overwritten by a later operation. -/
theorem claim_C7_entry_state_machine {V : Type} (op : Op V) (s s' : St V)
    (h : stepSt op s = some s') (j : Key) :
    lookupEntry j s.resolvers = none ∨
      EntryRel (lookupEntry j s.resolvers) (lookupEntry j s'.resolvers) := by
  cases op with
  | reg k v =>
    dsimp only [stepSt] at h
    split at h
    · next u s1 heq =>
      obtain ⟨hh, hm, rfl⟩ := insertResolver_eq_ok heq
      injection h with h1
      subst h1
      by_cases hj : j = k
      · subst hj
        cases hlkc : lookupEntry j s.resolvers with
        | none => exact Or.inl rfl
        | some r =>
          rw [hasKey] at hh
          rw [hlkc] at hh
          simp at hh
      · right
        dsimp only
        rw [lookupEntry_setEntry_ne hj]
        exact entryRel_refl _
    · next e s1 heq =>
      obtain ⟨hh, he, rfl⟩ := insertResolver_eq_err heq
      injection h with h1
      subst h1
      exact Or.inr (entryRel_refl _)
    · exact Option.noConfusion h
  | regBuilder k b =>
    dsimp only [stepSt] at h
    split at h
    · next u s1 heq =>
      obtain ⟨hh, hm, rfl⟩ := insertResolver_eq_ok heq
      injection h with h1
      subst h1
      by_cases hj : j = k
      · subst hj
        cases hlkc : lookupEntry j s.resolvers with
        | none => exact Or.inl rfl
        | some r =>
          rw [hasKey] at hh
          rw [hlkc] at hh
          simp at hh
      · right
        dsimp only
        rw [lookupEntry_setEntry_ne hj]
        exact entryRel_refl _
    · next e s1 heq =>
      obtain ⟨hh, he, rfl⟩ := insertResolver_eq_err heq
      injection h with h1
      subst h1
      exact Or.inr (entryRel_refl _)
    · exact Option.noConfusion h
  | regFactory k st code =>
    dsimp only [stepSt] at h
    split at h
    · next u s1 heq =>
      obtain ⟨hh, hm, rfl⟩ := insertResolver_eq_ok heq
      injection h with h1
      subst h1
      by_cases hj : j = k
      · subst hj
        cases hlkc : lookupEntry j s.resolvers with
        | none => exact Or.inl rfl
        | some r =>
          rw [hasKey] at hh
          rw [hlkc] at hh
          simp at hh
      · right
        dsimp only
        rw [lookupEntry_setEntry_ne hj]
        exact entryRel_refl _
    · next e s1 heq =>
      obtain ⟨hh, he, rfl⟩ := insertResolver_eq_err heq
      injection h with h1
      subst h1
      exact Or.inr (entryRel_refl _)
    · exact Option.noConfusion h
  | regAuto k =>
    dsimp only [stepSt, registerAutomaticFactory] at h
    exact Option.noConfusion h
  | resolveOp fuel k =>
    dsimp only [stepSt] at h
    split at h
    · next rc s1 heq =>
      injection h with h1
      subst h1
      exact Or.inr (((resolveKey_spec fuel).1 _ _ _ _ heq).2.2.2.1 j)
    · next e s1 heq =>
      obtain ⟨rfl, he⟩ := (resolveKey_spec fuel).2 _ _ _ _ heq
      injection h with h1
      subst h1
      exact Or.inr (entryRel_refl _)
    · exact Option.noConfusion h

/-- Witness for C7: a first registration on the empty container installs
an entry for key 0, and one resolution step on `builderSt` turns its
`Builder` entry for key 3 into `Shared`. -/
theorem claim_C7_witness :
    (stepSt (Op.reg 0 (42 : Int)) (emptySt Int)
        = some ({ resolvers := [(0, Resolver.shared ⟨0, 42⟩)],
                  nextAddr := 1, mapShared := 0, lockedCells := [],
                  builderRuns := [], factoryRuns := [] } : St Int) ∧
      (lookupEntry 0 (emptySt Int).resolvers = none ∨
        EntryRel (lookupEntry 0 (emptySt Int).resolvers)
          (lookupEntry 0 ([(0, Resolver.shared (⟨0, (42 : Int)⟩ : RcV Int))])))) ∧
    (stepSt (Op.resolveOp 3 3) builderSt = some builderSt1 ∧
      (lookupEntry 3 builderSt.resolvers = none ∨
        EntryRel (lookupEntry 3 builderSt.resolvers)
          (lookupEntry 3 builderSt1.resolvers))) :=
  ⟨⟨rfl, claim_C7_entry_state_machine (Op.reg 0 42) (emptySt Int) _ rfl 0⟩,
    ⟨rfl, claim_C7_entry_state_machine (Op.resolveOp 3 3) builderSt builderSt1 rfl 3⟩⟩

end KamikazeDi
